import Mathlib

/-!
Shallow embedding of the text-to-schedule core of the Cal backend
(src/backend/app/main.py): the regex-based field extractors, the
field assembler `parse_text_into_fields`, the interval conflict
predicate `_overlaps` used by event creation, and the next-free-slot
search `suggest_next_free`.

Conventions:
* Python strings are `List Char`; all the regexes in the source are
  ASCII and case-insensitive, which the engine below reproduces.
* Python `datetime` values are minutes since the proleptic Gregorian
  epoch (`Date` ordinal * 1440); the source only ever exchanges whole
  minutes.  ISO-8601 rendering of the final UTC instants is omitted:
  the instants themselves are kept.
* Raising an exception is modelled with `Except PErr`.
* `datetime.now(tz).date()` is passed in explicitly as `today`.
-/

/-- ASCII lower-casing, as `str.lower` acts on the ASCII inputs used here. -/
def lcChar (c : Char) : Char :=
  if 'A' ≤ c ∧ c ≤ 'Z' then Char.ofNat (c.toNat + 32) else c

/-- ASCII upper-casing, as `str.upper` acts on the ASCII inputs used here. -/
def ucChar (c : Char) : Char :=
  if 'a' ≤ c ∧ c ≤ 'z' then Char.ofNat (c.toNat - 32) else c

def pyLower (s : List Char) : List Char := s.map lcChar

def pyUpper (s : List Char) : List Char := s.map ucChar

/-- The ASCII whitespace class of Python `\s` and `str.strip()`. -/
def isSpaceChar (c : Char) : Bool :=
  c = ' ' || c = '\t' || c = '\n' || c = '\r' || c = Char.ofNat 11 || c = Char.ofNat 12

def isDigitChar (c : Char) : Bool := '0' ≤ c && c ≤ '9'

def isAlphaChar (c : Char) : Bool := ('a' ≤ c && c ≤ 'z') || ('A' ≤ c && c ≤ 'Z')

/-- Python regex `\w` on ASCII input. -/
def isWordChar (c : Char) : Bool := isAlphaChar c || isDigitChar c || c = '_'

/-- `str.strip()` (whitespace from both ends). -/
def pyStrip (s : List Char) : List Char :=
  ((s.dropWhile isSpaceChar).reverse.dropWhile isSpaceChar).reverse

/-- `str.strip(chars)` (the given characters from both ends). -/
def pyStripChars (s : List Char) (cs : List Char) : List Char :=
  ((s.dropWhile cs.contains).reverse.dropWhile cs.contains).reverse

/-- `int(...)` on a digit string. -/
def natOfDigits (s : List Char) : Nat :=
  s.foldl (fun a c => a * 10 + (c.toNat - 48)) 0

/-! ## Dates (Python `datetime.date`, proleptic Gregorian) -/

structure Date where
  year : Nat
  month : Nat
  day : Nat
deriving DecidableEq, Repr

def isLeap (y : Nat) : Bool := (y % 4 == 0 && y % 100 != 0) || y % 400 == 0

def daysInMonth (y m : Nat) : Nat :=
  if m = 2 then (if isLeap y then 29 else 28)
  else if m = 4 ∨ m = 6 ∨ m = 9 ∨ m = 11 then 30
  else 31

/-- Days in year `y` strictly before month `m` (for `m` in 1..12). -/
def daysBeforeMonth (y m : Nat) : Nat :=
  let base := [0, 0, 31, 59, 90, 120, 151, 181, 212, 243, 273, 304, 334].getD m 0
  if 2 < m ∧ isLeap y then base + 1 else base

/-- `date.toordinal()`: 0001-01-01 is day 1. -/
def dateToOrd (d : Date) : Nat :=
  let y := d.year - 1
  365 * y + y / 4 - y / 100 + y / 400 + daysBeforeMonth d.year d.month + d.day

/-- `date.fromordinal`, by the standard civil-from-days division algorithm. -/
def ordToDate (n : Nat) : Date :=
  let z := n + 305
  let era := z / 146097
  let doe := z % 146097
  let yoe := (doe - doe / 1460 + doe / 36524 - doe / 146096) / 365
  let y := yoe + era * 400
  let doy := doe - (365 * yoe + yoe / 4 - yoe / 100)
  let mp := (5 * doy + 2) / 153
  let dd := doy - (153 * mp + 2) / 5 + 1
  let mm := if mp < 10 then mp + 3 else mp - 9
  ⟨if mm ≤ 2 then y + 1 else y, mm, dd⟩

/-- Python `date.weekday()`: Monday = 0 .. Sunday = 6. -/
def weekdayPy (d : Date) : Nat := (dateToOrd d + 6) % 7

/-- `date + timedelta(days = k)`. -/
def dateAddDays (d : Date) (k : Nat) : Date := ordToDate (dateToOrd d + k)

/-- Python `date` comparison (field-lexicographic, all stored dates valid). -/
def dateLtB (a b : Date) : Bool :=
  decide (a.year < b.year ∨ (a.year = b.year ∧
    (a.month < b.month ∨ (a.month = b.month ∧ a.day < b.day))))

/-- The validating `date(y, m, d)` constructor; `none` models `ValueError`. -/
def date_new (y m d : Nat) : Option Date :=
  if 1 ≤ y ∧ y ≤ 9999 ∧ 1 ≤ m ∧ m ≤ 12 ∧ 1 ≤ d ∧ d ≤ daysInMonth y m then
    some ⟨y, m, d⟩
  else none

/-- Exceptions the modelled code can raise. -/
inductive PErr where
  | unknownZone
  | badTime
  | invalidDuration
  | loopLimit
deriving DecidableEq, Repr

/-- Minutes since the epoch of a wall-clock `datetime(d, hh, mi)`. -/
def datetime_min (d : Date) (hh mi : Nat) : Nat :=
  (dateToOrd d - 1) * 1440 + hh * 60 + mi

/-- The validating `datetime(...)` constructor: hour 0..23, minute 0..59
(the date part always comes from an already-valid `Date` in the source);
`.error .badTime` models the `ValueError` it raises. -/
def datetime_new (d : Date) (hh mi : Nat) : Except PErr Nat :=
  if hh ≤ 23 ∧ mi ≤ 59 then .ok (datetime_min d hh mi) else .error .badTime

def hourOfMin (n : Nat) : Nat := n % 1440 / 60

def minuteOfMin (n : Nat) : Nat := n % 60

def digitChar (n : Nat) : Char := Char.ofNat (48 + n % 10)

def pad2 (n : Nat) : List Char := [digitChar (n / 10), digitChar n]

def pad4 (n : Nat) : List Char :=
  [digitChar (n / 1000), digitChar (n / 100), digitChar (n / 10), digitChar n]

/-- `date.isoformat()`. -/
def isoDate (d : Date) : List Char :=
  pad4 d.year ++ ['-'] ++ pad2 d.month ++ ['-'] ++ pad2 d.day

/-! ## A small backtracking regex engine

Python's `re` is a leftmost-match backtracking engine; the combinators
below reproduce exactly the features the source's patterns use:
character classes, case-insensitive literals, concatenation, ordered
alternation, greedy `?` and `*`, capture groups, `\b`, and the
MULTILINE `$`.  Matching is case-insensitive throughout, as every
pattern in the source carries `re.IGNORECASE` (literals are stored
lower-case).  Recursion is fuelled; `reFuel` is far above the deepest
possible backtracking chain for these patterns, so the fuel never runs
out on the inputs considered. -/

inductive RE where
  | eps : RE
  | cls : (Char → Bool) → RE
  | lit : List Char → RE
  | seq : RE → RE → RE
  | alt : RE → RE → RE
  | opt : RE → RE
  | star : RE → RE
  | grp : Nat → RE → RE
  | wb : RE
  | eolm : RE

/-- Captured groups: (index, suffix length at start, suffix length at end). -/
abbrev Caps := List (Nat × Nat × Nat)

def litMatch : List Char → List Char → Option Char → Option (List Char × Option Char)
  | [], rem, prev => some (rem, prev)
  | _ :: _, [], _ => none
  | p :: ps, c :: rs, _ => if lcChar c = p then litMatch ps rs (some c) else none

def isWordOpt : Option Char → Bool
  | some c => isWordChar c
  | none => false

/-- `\b`: word-ness changes between the previous and the next character. -/
def atBoundary (prev : Option Char) (rem : List Char) : Bool :=
  isWordOpt prev != isWordOpt rem.head?

def reM : Nat → RE → List Char → Option Char → Caps →
    (List Char → Option Char → Caps → Option (List Char × Caps)) →
    Option (List Char × Caps)
  | 0, _, _, _, _, _ => none
  | f + 1, r, rem, prev, caps, k =>
    match r with
    | .eps => k rem prev caps
    | .cls p =>
      match rem with
      | c :: rs => if p c then k rs (some c) caps else none
      | [] => none
    | .lit ps =>
      match litMatch ps rem prev with
      | some (rem2, prev2) => k rem2 prev2 caps
      | none => none
    | .seq a b =>
      reM f a rem prev caps (fun rem2 prev2 caps2 => reM f b rem2 prev2 caps2 k)
    | .alt a b =>
      match reM f a rem prev caps k with
      | some res => some res
      | none => reM f b rem prev caps k
    | .opt a =>
      match reM f a rem prev caps k with
      | some res => some res
      | none => k rem prev caps
    | .star a =>
      match reM f a rem prev caps (fun rem2 prev2 caps2 =>
          if rem2.length < rem.length then reM f (.star a) rem2 prev2 caps2 k
          else none) with
      | some res => some res
      | none => k rem prev caps
    | .grp i a =>
      reM f a rem prev caps
        (fun rem2 prev2 caps2 => k rem2 prev2 ((i, rem.length, rem2.length) :: caps2))
    | .wb => if atBoundary prev rem then k rem prev caps else none
    | .eolm => if rem.isEmpty || rem.head? = some '\n' then k rem prev caps else none

def reSize : RE → Nat
  | .eps | .wb | .eolm => 1
  | .cls _ => 1
  | .lit l => l.length + 1
  | .seq a b | .alt a b => reSize a + reSize b + 1
  | .opt a | .star a | .grp _ a => reSize a + 1

def reFuel (r : RE) (n : Nat) : Nat := (reSize r + 2) * (n + 2) + 16

/-- Leftmost search: first position (scanning left to right) at which the
pattern matches; returns (position, length of the unmatched suffix, captures). -/
def reSearchGo (r : RE) : List Char → Option Char → Nat → Option (Nat × Nat × Caps)
  | rem, prev, pos =>
    match reM (reFuel r rem.length) r rem prev [] (fun rem2 _ caps2 => some (rem2, caps2)) with
    | some (rem2, caps2) => some (pos, rem2.length, caps2)
    | none =>
      match rem with
      | [] => none
      | c :: rs => reSearchGo r rs (some c) (pos + 1)

/-- `pattern.search(s)`. -/
def reSearch (r : RE) (s : List Char) : Option (Nat × Nat × Caps) :=
  reSearchGo r s none 0

def capLookup : Caps → Nat → Option (Nat × Nat)
  | [], _ => none
  | (j, a, b) :: rest, i => if j = i then some (a, b) else capLookup rest i

def sliceByRem (s : List Char) (a b : Nat) : List Char :=
  (s.drop (s.length - a)).take (a - b)

/-- `match.group(i)` (relative to the string the search ran on). -/
def reGroup (s : List Char) (caps : Caps) (i : Nat) : Option (List Char) :=
  (capLookup caps i).map (fun p => sliceByRem s p.1 p.2)

/-- `pattern.sub(repl, s)`: replace every non-overlapping match, left to right.
(None of the source's patterns can match the empty string; a zero-width match
would stop the scan.) -/
def reSubGo (r : RE) (repl : List Char → Caps → List Char) :
    Nat → List Char → Option Char → List Char
  | 0, rest, _ => rest
  | f + 1, rest, prev =>
    match reSearchGo r rest prev 0 with
    | none => rest
    | some (pos, remAfter, caps) =>
      let matchLen := rest.length - pos - remAfter
      if matchLen = 0 then rest
      else
        let pre := rest.take pos
        let matched := (rest.drop pos).take matchLen
        let after := rest.drop (pos + matchLen)
        pre ++ repl matched caps ++ reSubGo r repl f after (matched.getLast? <|> prev)

def reSubAll (r : RE) (repl : List Char → Caps → List Char) (s : List Char) : List Char :=
  reSubGo r repl (s.length + 1) s none

/-- Deleting substitution (`pattern.sub("", s)`). -/
def reDel (r : RE) (s : List Char) : List Char := reSubAll r (fun _ _ => []) s

/-- `pattern.match(s)` against an `^...$`-anchored pattern: a match must
start at position 0 and consume the whole string. -/
def reMatchFull (r : RE) (s : List Char) : Bool :=
  (reM (reFuel r s.length) r s none []
    (fun rem _ caps => if rem.isEmpty then some (rem, caps) else none)).isSome

/-! ## The source's compiled patterns

Each definition below transcribes one `re.compile(...)` constant of
src/backend/app/main.py (all `IGNORECASE`; literals are stored
lower-case for the case-insensitive `lit`). -/

def rcat (l : List RE) : RE := l.foldr RE.seq RE.eps

def ralts : List RE → RE
  | [] => RE.eps
  | [r] => r
  | r :: rest => RE.alt r (ralts rest)

def rlit (s : String) : RE := RE.lit s.data

def rdigit : RE := RE.cls isDigitChar

def rws : RE := RE.cls isSpaceChar

def rwsStar : RE := RE.star rws

def rwsPlus : RE := RE.seq rws rwsStar

/-- `\w*` -/
def rwStar : RE := RE.star (RE.cls isWordChar)

/-- `\d{1,2}` (greedy) -/
def d12 : RE := RE.seq rdigit (RE.opt rdigit)

/-- `\d{2}` -/
def d2 : RE := RE.seq rdigit rdigit

/-- `\d{2,4}` (greedy) -/
def d24 : RE := rcat [rdigit, rdigit, RE.opt (RE.seq rdigit (RE.opt rdigit))]

/-- `\d{4}` -/
def d4 : RE := rcat [rdigit, rdigit, rdigit, rdigit]

/-- `\d+` -/
def dPlus : RE := RE.seq rdigit (RE.star rdigit)

/-- `[ap]m` -/
def ampmRE : RE := RE.seq (RE.cls (fun c => lcChar c = 'a' || lcChar c = 'p')) (rlit "m")

/-- `TIME_RANGE_RE`; groups: 1 s_h, 2 s_m, 3 s_ampm, 4 e_h, 5 e_m, 6 e_ampm. -/
def TIME_RANGE_RE : RE := rcat [
  RE.grp 1 d12,
  RE.opt (RE.seq (rlit ":") (RE.grp 2 d2)),
  rwsStar,
  RE.opt (RE.grp 3 ampmRE),
  rwsStar,
  ralts [rlit "-", rlit "–", rlit "—", rlit "to"],
  rwsStar,
  RE.grp 4 d12,
  RE.opt (RE.seq (rlit ":") (RE.grp 5 d2)),
  rwsStar,
  RE.opt (RE.grp 6 ampmRE)]

/-- `TIME_SINGLE_RE`; groups: 1 h, 2 m, 3 ampm. -/
def TIME_SINGLE_RE : RE := rcat [
  RE.wb,
  RE.grp 1 d12,
  RE.opt (RE.seq (rlit ":") (RE.grp 2 d2)),
  rwsStar,
  RE.opt (RE.grp 3 ampmRE),
  RE.wb]

/-- `\d+(?:\.\d+)?` -/
def floatDigitsRE : RE := RE.seq dPlus (RE.opt (RE.seq (rlit ".") dPlus))

/-- `(?:hours?|hrs?|h)` -/
def hourUnitRE : RE :=
  ralts [RE.seq (rlit "hour") (RE.opt (rlit "s")),
         RE.seq (rlit "hr") (RE.opt (rlit "s")),
         rlit "h"]

/-- `(?:minutes?|mins?|m)` -/
def minUnitRE : RE :=
  ralts [RE.seq (rlit "minute") (RE.opt (rlit "s")),
         RE.seq (rlit "min") (RE.opt (rlit "s")),
         rlit "m"]

/-- `DURATION_RE`; groups: 1 h (possibly fractional), 2 m. -/
def DURATION_RE : RE := rcat [
  RE.wb, rlit "for", rwsPlus,
  RE.opt (rcat [RE.grp 1 floatDigitsRE, rwsStar, hourUnitRE]),
  rwsStar,
  RE.opt (rcat [RE.grp 2 dPlus, rwsStar, minUnitRE]),
  RE.wb]

/-- `(?:jan|feb|mar|apr|may|jun|jul|aug|sep|sept|oct|nov|dec)` in source order. -/
def monthAltRE : RE := ralts [rlit "jan", rlit "feb", rlit "mar", rlit "apr",
  rlit "may", rlit "jun", rlit "jul", rlit "aug", rlit "sep", rlit "sept",
  rlit "oct", rlit "nov", rlit "dec"]

/-- `\d{1,2}/\d{1,2}(?:/\d{2,4})?` -/
def slashDateRE : RE := rcat [d12, rlit "/", d12, RE.opt (RE.seq (rlit "/") d24)]

/-- `(?:month)\w*\s+\d{1,2}(?:,\s*YEAR)?` with the given year pattern. -/
def nameDateRE (yearRE : RE) : RE := rcat [
  monthAltRE, rwStar, rwsPlus, d12,
  RE.opt (rcat [rlit ",", rwsStar, yearRE])]

/-- The date alternative with year `\d{2,4}` (DATE_TOKEN_RE / DATE_RANGE_RE). -/
def dateTokRE24 : RE := RE.alt slashDateRE (nameDateRE d24)

/-- The date alternative with year `\d{4}` (UNTIL_RE). -/
def dateTokRE4 : RE := RE.alt slashDateRE (nameDateRE d4)

/-- `UNTIL_RE`; group 1 is the date. -/
def UNTIL_RE : RE := rcat [
  RE.wb, ralts [rlit "until", rlit "through"], rwsPlus, RE.grp 1 dateTokRE4]

/-- `DATE_TOKEN_RE`. -/
def DATE_TOKEN_RE : RE := rcat [RE.wb, dateTokRE24, RE.wb]

/-- `DATE_RANGE_RE`; groups: 1 d1, 2 d2. -/
def DATE_RANGE_RE : RE := rcat [
  RE.grp 1 dateTokRE24,
  rwsStar,
  ralts [rlit "-", rlit "–", rlit "—", rlit "to", rlit "through"],
  rwsStar,
  RE.grp 2 dateTokRE24]

/-- Day-word alternatives, in source order. -/
def dayWordAlts : List String :=
  ["mon", "monday", "tue", "tues", "tuesday", "wed", "weds", "wednesday",
   "thu", "thur", "thurs", "thursday", "fri", "friday", "sat", "saturday",
   "sun", "sunday"]

def dayContRE : RE := ralts (dayWordAlts.map rlit)

def dayFirstRE : RE :=
  ralts ((dayWordAlts ++ ["weekdays", "weekday", "daily", "everyday"]).map rlit)

/-- `DAYS_LIST_RE`; group 1 is the matched day list. -/
def DAYS_LIST_RE : RE := rcat [
  RE.wb,
  RE.opt (RE.seq (ralts [rlit "every", rlit "on"]) rwsPlus),
  RE.grp 1 (RE.seq dayFirstRE
    (RE.star (rcat [rwsStar, RE.cls (fun c => c = '/' || c = ','), rwsStar, dayContRE]))),
  RE.wb]

/-- `[^,.;\n]` -/
def locChar : Char → Bool := fun c => !(c = ',' || c = '.' || c = ';' || c = '\n')

/-- `LOCATION_RE`; group 1 is the location clause. -/
def LOCATION_RE : RE := rcat [
  ralts [RE.seq RE.wb (rlit "@"),
         rcat [RE.wb, rlit "at", RE.wb],
         rcat [RE.wb, rlit "in", RE.wb]],
  rwsPlus,
  RE.grp 1 (RE.seq (RE.cls locChar) (RE.star (RE.cls locChar)))]

/-- `.` (no DOTALL anywhere in the source). -/
def dotChar : Char → Bool := fun c => c ≠ '\n'

/-- `DESC_RE` (MULTILINE `$`); group 1 is the description. -/
def DESC_RE : RE := rcat [
  RE.wb,
  ralts [rlit "desc", RE.seq (rlit "note") (RE.opt (rlit "s"))],
  rwsStar, rlit ":", rwsStar,
  RE.grp 1 (RE.seq (RE.cls dotChar) (RE.star (RE.cls dotChar))),
  RE.eolm]

/-- `TZ_RE`; group 1 is the abbreviation. -/
def TZ_RE : RE := rcat [
  RE.wb,
  RE.grp 1 (ralts [rlit "et", rlit "est", rlit "edt", rlit "ct", rlit "cst",
    rlit "cdt", rlit "mt", rlit "mst", rlit "mdt", rlit "pt", rlit "pst",
    rlit "pdt"]),
  RE.wb]

/-- `EVERY_WEEKS_RE`; group 1 is N. -/
def EVERY_WEEKS_RE : RE := rcat [
  RE.wb,
  ralts [rlit "biweekly",
         rcat [rlit "every", rwsPlus, rlit "other", rwsPlus, rlit "week"],
         rcat [rlit "every", rwsPlus, RE.grp 1 dPlus, rwsPlus,
               rlit "week", RE.opt (rlit "s")]],
  RE.wb]

/-- `FOR_WEEKS_RE`; group 1 is N. -/
def FOR_WEEKS_RE : RE := rcat [
  RE.wb, rlit "for", rwsPlus, RE.grp 1 dPlus, rwsPlus,
  rlit "week", RE.opt (rlit "s"), RE.wb]

/-- The scrub-stage `\b(daily|every\s+day|everyday|every\s+weekday|weekday|weekdays)\b`. -/
def DAILY_WORDS_RE : RE := rcat [
  RE.wb,
  RE.grp 1 (ralts [rlit "daily",
    rcat [rlit "every", rwsPlus, rlit "day"],
    rlit "everyday",
    rcat [rlit "every", rwsPlus, rlit "weekday"],
    rlit "weekday", rlit "weekdays"]),
  RE.wb]

/-- `\bnoon\b` -/
def NOON_RE : RE := rcat [RE.wb, rlit "noon", RE.wb]

/-- `\bmidnight\b` -/
def MIDNIGHT_RE : RE := rcat [RE.wb, rlit "midnight", RE.wb]

/-- The relative-date pattern of `parse_text_into_fields`; group 1. -/
def RELATIVE_RE : RE := rcat [
  RE.wb,
  RE.grp 1 (ralts [rlit "today", rlit "tomorrow",
    rcat [ralts [rlit "this", rlit "next"], rwsPlus,
      ralts ([rlit "mon", rlit "tue", rlit "tues", rlit "wed", rlit "thu",
        rlit "thur", rlit "thurs", rlit "fri", rlit "sat", rlit "sun"])]]),
  RE.wb]

/-- `\s{2,}` (no IGNORECASE needed). -/
def MULTISPACE_RE : RE := rcat [rws, rws, RE.star rws]

/-- `^\d{1,2}/\d{1,2}$` as used via `re.match` in `parse_until_date`
(checked with `reMatchFull`). -/
def SLASH_NOYEAR_RE : RE := rcat [d12, rlit "/", d12]

/-! ## Parsing helpers (src/backend/app/main.py lines 220-343) -/

/-- `to_24h`. -/
def to_24h (h m : Nat) (ampm : Option (List Char)) : Nat × Nat :=
  match ampm with
  | none => (h, m)
  | some s =>
    let a := pyLower s
    let h1 := if a = "pm".data ∧ h ≠ 12 then h + 12 else h
    let h2 := if a = "am".data ∧ h1 = 12 then 0 else h1
    (h2, m)

/-- `infer_missing_ampm`. -/
def infer_missing_ampm (s e : Option (List Char)) :
    Option (List Char) × Option (List Char) :=
  match s, e with
  | some a, none => (some a, some a)
  | none, some b => (some b, some b)
  | _, _ => (s, e)

/-- `parse_time_range`. -/
def parse_time_range (text : List Char) : Option (Nat × Nat × Nat × Nat) :=
  (reSearch TIME_RANGE_RE text).map fun m =>
    let caps := m.2.2
    let s_h := natOfDigits ((reGroup text caps 1).getD [])
    let s_m := natOfDigits ((reGroup text caps 2).getD [])
    let e_h := natOfDigits ((reGroup text caps 4).getD [])
    let e_m := natOfDigits ((reGroup text caps 5).getD [])
    let ap := infer_missing_ampm (reGroup text caps 3) (reGroup text caps 6)
    let s2 := to_24h s_h s_m ap.1
    let e2 := to_24h e_h e_m ap.2
    (s2.1, s2.2, e2.1, e2.2)

/-- Round-half-even, as Python `round` on these magnitudes. -/
def roundHalfEven (num den : Nat) : Nat :=
  let q := num / den
  let r := num % den
  if 2 * r < den then q
  else if 2 * r > den then q + 1
  else if q % 2 = 0 then q else q + 1

/-- `int(round(dh*60 + mm))` with `dh` parsed from `digits[.digits]`,
modelled exactly over rationals. -/
def durationMinutes (hRaw : Option (List Char)) (mRaw : Option (List Char)) : Nat :=
  let mm := natOfDigits (mRaw.getD [])
  match hRaw with
  | none => mm
  | some hs =>
    let ip := hs.takeWhile (fun c => c ≠ '.')
    let fp := (hs.dropWhile (fun c => c ≠ '.')).drop 1
    let den := 10 ^ fp.length
    roundHalfEven ((natOfDigits ip * den + natOfDigits fp) * 60 + mm * den) den

/-- `parse_single_time_and_duration`. -/
def parse_single_time_and_duration (text : List Char) : Option (Nat × Nat × Nat) :=
  (reSearch TIME_SINGLE_RE text).bind fun tm =>
    let h := natOfDigits ((reGroup text tm.2.2 1).getD [])
    let m := natOfDigits ((reGroup text tm.2.2 2).getD [])
    let hm := to_24h h m (reGroup text tm.2.2 3)
    (reSearch DURATION_RE text).map fun dm =>
      let dur := durationMinutes (reGroup text dm.2.2 1) (reGroup text dm.2.2 2)
      let dur := if dur = 0 then 60 else dur
      (hm.1, hm.2, dur)

/-- Month names known to `dateutil` (used by the `dtparse` model). -/
def monthNames : List (List Char × Nat) :=
  [("jan".data, 1), ("january".data, 1), ("feb".data, 2), ("february".data, 2),
   ("mar".data, 3), ("march".data, 3), ("apr".data, 4), ("april".data, 4),
   ("may".data, 5), ("jun".data, 6), ("june".data, 6), ("jul".data, 7),
   ("july".data, 7), ("aug".data, 8), ("august".data, 8), ("sep".data, 9),
   ("sept".data, 9), ("september".data, 9), ("oct".data, 10), ("october".data, 10),
   ("nov".data, 11), ("november".data, 11), ("dec".data, 12), ("december".data, 12)]

/-- `dateutil`'s two-digit-year resolution relative to the default year. -/
def convertYear (today : Date) (y : Nat) : Nat :=
  let y2 := y + today.year / 100 * 100
  if (if y2 ≥ today.year then y2 - today.year else today.year - y2) ≥ 50 then
    (if y2 < today.year then y2 + 100 else y2 - 100)
  else y2

def resolveYear (today : Date) (yOpt : Option Nat) : Nat :=
  match yOpt with
  | none => today.year
  | some y => if y ≥ 100 then y else convertYear today y

def splitOnChar (sep : Char) : List Char → List (List Char)
  | [] => [[]]
  | c :: rest =>
    let r := splitOnChar sep rest
    if c = sep then [] :: r
    else
      match r with
      | h :: t => (c :: h) :: t
      | [] => [[c]]

/-- Model of `dateutil.parser.parse(raw, fuzzy=True, default=now).date()`,
restricted to the token shapes the source's date regexes capture:
`M/D`, `M/D/Y` (month first, falling back to day first when the first
number exceeds 12, as dateutil does) and `<monthword> D[, Y]` (an
unknown month word is skipped by fuzzy parsing, leaving the default
month).  Missing fields default to `today`'s; invalid dates are `none`
(`ValueError`). -/
def parseDateToken (raw : List Char) (today : Date) : Option Date :=
  if raw.contains '/' then
    match splitOnChar '/' raw with
    | [p1, p2] =>
      let a := natOfDigits p1
      let b := natOfDigits p2
      if 1 ≤ a ∧ a ≤ 12 then date_new today.year a b
      else if 1 ≤ b ∧ b ≤ 12 then date_new today.year b a
      else none
    | [p1, p2, p3] =>
      let a := natOfDigits p1
      let b := natOfDigits p2
      let y := resolveYear today (some (natOfDigits p3))
      if 1 ≤ a ∧ a ≤ 12 then date_new y a b
      else if 1 ≤ b ∧ b ≤ 12 then date_new y b a
      else none
    | _ => none
  else
    let word := raw.takeWhile isWordChar
    let rest1 := (raw.drop word.length).dropWhile isSpaceChar
    let dayDigits := rest1.takeWhile isDigitChar
    let rest2 := rest1.drop dayDigits.length
    let yearOpt :=
      match rest2 with
      | ',' :: more =>
        let yd := (more.dropWhile isSpaceChar).takeWhile isDigitChar
        if yd = [] then none else some (natOfDigits yd)
      | _ => none
    if dayDigits = [] then none
    else
      let day := natOfDigits dayDigits
      let y := resolveYear today yearOpt
      match List.lookup (pyLower word) monthNames with
      | some mo => date_new y mo day
      | none => date_new y today.month day

def until_raw (text : List Char) : Option (List Char) :=
  (reSearch UNTIL_RE text).bind fun m => reGroup text m.2.2 1

/-- `parse_until_date`. -/
def parse_until_date (text : List Char) (today : Date) : Option Date :=
  (until_raw text).bind fun raw =>
    (parseDateToken raw today).bind fun d =>
      if dateLtB d today && reMatchFull SLASH_NOYEAR_RE (pyStrip raw) then
        date_new (today.year + 1) d.month d.day
      else some d

/-- `DOW_MAP` (Sunday = 0 .. Saturday = 6). -/
def DOW_MAP : List (List Char × Nat) :=
  [("sunday".data, 0), ("sun".data, 0),
   ("monday".data, 1), ("mon".data, 1),
   ("tuesday".data, 2), ("tue".data, 2), ("tues".data, 2),
   ("wednesday".data, 3), ("wed".data, 3), ("weds".data, 3),
   ("thursday".data, 4), ("thu".data, 4), ("thur".data, 4), ("thurs".data, 4),
   ("friday".data, 5), ("fri".data, 5),
   ("saturday".data, 6), ("sat".data, 6)]

/-- The abbreviation-to-full-name remap inside `parse_days_list`. -/
def dayKeyRemap : List (List Char × List Char) :=
  [("mon".data, "monday".data), ("tue".data, "tuesday".data),
   ("tues".data, "tuesday".data), ("wed".data, "wednesday".data),
   ("weds".data, "wednesday".data), ("thu".data, "thursday".data),
   ("thur".data, "thursday".data), ("thurs".data, "thursday".data),
   ("fri".data, "friday".data), ("sat".data, "saturday".data),
   ("sun".data, "sunday".data)]

/-- `re.split(r"[/,]\s*", raw)`: the separator eats the following
whitespace only. -/
def splitDaysGo : List Char → Bool → List (List Char)
  | [], _ => [[]]
  | c :: rest, skip =>
    if skip ∧ isSpaceChar c then splitDaysGo rest true
    else if c = '/' ∨ c = ',' then [] :: splitDaysGo rest true
    else
      match splitDaysGo rest false with
      | h :: t => (c :: h) :: t
      | [] => [[c]]

def splitDays (s : List Char) : List (List Char) := splitDaysGo s false

def startsWithL : List Char → List Char → Bool
  | [], _ => true
  | _ :: _, [] => false
  | p :: ps, c :: cs => p = c && startsWithL ps cs

def isInfixL (pat : List Char) : List Char → Bool
  | [] => pat.isEmpty
  | c :: rest => startsWithL pat (c :: rest) || isInfixL pat rest

/-- Python `key in t` (substring containment). -/
def isInfixStr (pat : String) (t : List Char) : Bool := isInfixL pat.data t

/-- The `days` group of the first `DAYS_LIST_RE` match. -/
def days_group (text : List Char) : Option (List Char) :=
  (reSearch DAYS_LIST_RE text).bind fun m => reGroup text m.2.2 1

/-- `parse_days_list`. -/
def parse_days_list (text : List Char) : Option (List Nat) :=
  (days_group text).bind fun raw =>
    let t := pyStrip (pyLower raw)
    if isInfixStr "weekday" t || isInfixStr "weekdays" t then some [1, 2, 3, 4, 5]
    else if isInfixStr "daily" t || isInfixStr "everyday" t then
      some [0, 1, 2, 3, 4, 5, 6]
    else
      let parts := splitDays raw
      let out := parts.filterMap fun p =>
        let q := pyLower (pyStrip p)
        let key := (List.lookup q dayKeyRemap).getD q
        List.lookup key DOW_MAP
      let r := (List.range 7).filter (fun i => out.contains i)
      if r = [] then none else some r

/-- `parse_every_weeks`. -/
def parse_every_weeks (text : List Char) : Option Nat :=
  (reSearch EVERY_WEEKS_RE text).map fun m =>
    match reGroup text m.2.2 1 with
    | some n => max 1 (natOfDigits n)
    | none => 2

/-- `parse_for_weeks`. -/
def parse_for_weeks (text : List Char) : Option Nat :=
  (reSearch FOR_WEEKS_RE text).map fun m =>
    max 1 (natOfDigits ((reGroup text m.2.2 1).getD []))

/-- `scrub_title` up to (and including) the `strip(" ,.-\n\t")`. -/
def scrub_core (text : List Char) : List Char :=
  let t := reDel DESC_RE text
  let t := reDel UNTIL_RE t
  let t := reDel FOR_WEEKS_RE t
  let t := reDel EVERY_WEEKS_RE t
  let t := reDel DURATION_RE t
  let t := reDel TIME_RANGE_RE t
  let t := reDel DAILY_WORDS_RE t
  let t := reDel DAYS_LIST_RE t
  let t := reDel DATE_RANGE_RE t
  let t := reDel DATE_TOKEN_RE t
  let t := reDel LOCATION_RE t
  let t := reDel TZ_RE t
  let t := reSubAll MULTISPACE_RE (fun _ _ => [' ']) t
  pyStripChars t " ,.-\n\t".data

/-- `scrub_title`: `(t or "Untitled").strip()`. -/
def scrub_title (text : List Char) : List Char :=
  let t := scrub_core text
  pyStrip (if t = [] then "Untitled".data else t)

/-! ## Timezones (`zoneinfo` model, `pick_tz`, `build_iso`)

The IANA database is external; the model below covers the zones the
source names (the `TZ_ABBR` targets and UTC).  Resolution of any other
identifier fails, exactly as `ZoneInfo` raises for the unresolvable
identifiers used in the theorems below. -/

def knownZones : List (List Char) :=
  ["UTC".data, "America/New_York".data, "America/Chicago".data,
   "America/Denver".data, "America/Los_Angeles".data]

def zone_valid (z : List Char) : Bool := knownZones.contains z

/-- `TZ_ABBR`. -/
def TZ_ABBR : List (List Char × List Char) :=
  [("ET".data, "America/New_York".data), ("EST".data, "America/New_York".data),
   ("EDT".data, "America/New_York".data), ("CT".data, "America/Chicago".data),
   ("CST".data, "America/Chicago".data), ("CDT".data, "America/Chicago".data),
   ("MT".data, "America/Denver".data), ("MST".data, "America/Denver".data),
   ("MDT".data, "America/Denver".data), ("PT".data, "America/Los_Angeles".data),
   ("PST".data, "America/Los_Angeles".data), ("PDT".data, "America/Los_Angeles".data)]

/-- `pick_tz`. -/
def pick_tz (prompt_tz : Option (List Char)) (fallback : List Char) : List Char :=
  match prompt_tz with
  | none => fallback
  | some p =>
    if p = [] then fallback
    else
      match List.lookup (pyUpper p) TZ_ABBR with
      | some z => z
      | none => if zone_valid p then p else fallback

/-- Ordinal of the nth Sunday of month `m` in year `y`. -/
def nthSundayOrd (y m nth : Nat) : Nat :=
  let first := dateToOrd ⟨y, m, 1⟩
  let off := (6 - (first + 6) % 7 + 7) % 7
  first + off + 7 * (nth - 1)

/-- US daylight saving in effect on the local date of wall-clock instant
`n` (date granularity; the 2 a.m. transition moment is simplified — no
theorem below depends on a non-UTC offset). -/
def usDstActive (n : Nat) : Bool :=
  let ord := n / 1440 + 1
  let d := ordToDate ord
  decide (nthSundayOrd d.year 3 2 ≤ ord ∧ ord < nthSundayOrd d.year 11 1)

/-- UTC offset in minutes of the modelled zones at local instant `n`. -/
def zoneOffsetMin (z : List Char) (n : Nat) : Int :=
  let dst : Int := if usDstActive n then 60 else 0
  if z = "America/New_York".data then -300 + dst
  else if z = "America/Chicago".data then -360 + dst
  else if z = "America/Denver".data then -420 + dst
  else if z = "America/Los_Angeles".data then -480 + dst
  else 0

/-- `build_iso`: attach `tz` to the wall-clock instant and convert to
UTC (the ISO-8601 rendering is omitted; the UTC instant is returned). -/
def build_iso (dt_local : Nat) (tz : List Char) : Nat :=
  (Int.ofNat dt_local - zoneOffsetMin tz dt_local).toNat

/-! ## The field assembler `parse_text_into_fields` (lines 391-538) -/

/-- The dictionary `parse_text_into_fields` returns; a `none` field is an
absent key.  `start`/`stop` are the UTC instants whose ISO rendering the
source returns (`stop` embeds the `end` key). -/
structure ParseOut where
  title : Option (List Char) := none
  start : Option Nat := none
  stop : Option Nat := none
  repeatDays : Option (List Nat) := none
  repeatUntil : Option Date := none
  repeatEveryWeeks : Option Nat := none
  location : Option (List Char) := none
  description : Option (List Char) := none
deriving DecidableEq, Repr

/-- The inner `WEEKDAY` dict (Monday = 0 .. Sunday = 6 — note the clash
with `DOW_MAP`'s Sunday = 0). -/
def WEEKDAY : List (List Char × Nat) :=
  [("mon".data, 0), ("tue".data, 1), ("tues".data, 1), ("wed".data, 2),
   ("thu".data, 3), ("thur".data, 3), ("thurs".data, 3), ("fri".data, 4),
   ("sat".data, 5), ("sun".data, 6)]

/-- `next_weekday`. -/
def next_weekday (base : Date) (target_idx : Nat) (inclusive : Bool) : Date :=
  let cur := weekdayPy base
  let delta := (target_idx + 7 - cur) % 7
  let delta := if delta = 0 ∧ ¬inclusive then 7 else delta
  dateAddDays base delta

def innerDayAlts : List (List Char) :=
  ["mon".data, "tue".data, "tues".data, "wed".data, "thu".data,
   "thur".data, "thurs".data, "fri".data, "sat".data, "sun".data]

/-- The inner `re.match(r"(this|next)\s+(mon|...)", w)` of
`replace_relative` (first-alternative prefix match, unanchored tail). -/
def matchThisNext (w : List Char) : Option (Bool × Nat) :=
  let kind : Option (Bool × List Char) :=
    if startsWithL "this".data w then some (true, w.drop 4)
    else if startsWithL "next".data w then some (false, w.drop 4)
    else none
  kind.bind fun kr =>
    match kr.2 with
    | c :: rest =>
      if isSpaceChar c then
        let rest2 := rest.dropWhile isSpaceChar
        innerDayAlts.findSome? (fun dw =>
          if startsWithL dw rest2 then
            (List.lookup dw WEEKDAY).map (fun i => (kr.1, i))
          else none)
      else none
    | [] => none

/-- `replace_relative`. -/
def replace_relative (matched : List Char) (today : Date) : List Char :=
  let w := pyLower matched
  if w = "today".data then isoDate today
  else if w = "tomorrow".data then isoDate (dateAddDays today 1)
  else
    match matchThisNext w with
    | some ki => isoDate (next_weekday today ki.2 ki.1)
    | none => w

/-- Lines 454-464: date-range extraction (the try/except that leaves
`(None, None)` on any failure). -/
def extract_date_range (text : List Char) (today : Date) : Option (Date × Date) :=
  (reSearch DATE_RANGE_RE text).bind fun m =>
    (reGroup text m.2.2 1).bind fun g1 =>
      (reGroup text m.2.2 2).bind fun g2 =>
        (parseDateToken g1 today).bind fun d1 =>
          (parseDateToken g2 today).bind fun d2 =>
            if dateLtB d2 d1 then
              (date_new (d1.year + 1) d2.month d2.day).map fun d2' => (d1, d2')
            else some (d1, d2)

/-- Model of line 471's `dtparse.parse(text, fuzzy=True, default=now)`:
fuzzy parsing extracts the date from the first date token of the text.
The call is guarded by `DATE_TOKEN_RE.search`, and no theorem below
depends on its value, only on the assembly around it. -/
def dtparse_fuzzy_text (text : List Char) (today : Date) : Option Date :=
  (reSearch DATE_TOKEN_RE text).bind fun m =>
    parseDateToken ((text.drop m.1).take (text.length - m.1 - m.2.1)) today

/-- Lines 403-405: dash normalization, noon and midnight substitution. -/
def normalize1 (text : List Char) : List Char :=
  let t := text.map (fun c => if c = '—' ∨ c = '–' then '-' else c)
  let t := reSubAll NOON_RE (fun _ _ => "12:00pm".data) t
  reSubAll MIDNIGHT_RE (fun _ _ => "12:00am".data) t

/-- The text every extractor sees: stripped input, normalized, with
relative-date phrases replaced by concrete ISO dates (lines 398-440). -/
def prepped_text (stripped : List Char) (today : Date) : List Char :=
  reSubAll RELATIVE_RE (fun matched _ => replace_relative matched today)
    (normalize1 stripped)

/-- Lines 477-487: time range, else single time + duration (with the
`datetime(2000,1,1,...)` construction), else the 09:00-10:00 fallback. -/
def times_step (text : List Char) : Except PErr (Nat × Nat × Nat × Nat) :=
  match parse_time_range text with
  | some r => .ok r
  | none =>
    match parse_single_time_and_duration text with
    | some (h, m, dur) =>
      match datetime_new ⟨2000, 1, 1⟩ h m with
      | .error e => .error e
      | .ok base =>
        let e := base + dur
        .ok (h, m, hourOfMin e, minuteOfMin e)
    | none => .ok (9, 0, 10, 0)

/-- Lines 520-521: `if end_local <= start_local: end_local += timedelta(hours=1)`. -/
def fix_end_local (start_local end_local : Nat) : Nat :=
  if end_local ≤ start_local then end_local + 60 else end_local

/-- Lines 518-521: construct the local start and (bumped) end datetimes,
propagating the `ValueError` of the `datetime` constructor. -/
def build_local_times (base_date : Date) (s_h s_m e_h e_m : Nat) :
    Except PErr (Nat × Nat) :=
  datetime_new base_date s_h s_m >>= fun start_local =>
    datetime_new base_date e_h e_m >>= fun end_local0 =>
      Except.ok (start_local, fix_end_local start_local end_local0)

/-- Dict-key truthiness gate for the optional string fields. -/
def gateStr (o : Option (List Char)) : Option (List Char) :=
  match o with
  | some l => if l = [] then none else some l
  | none => none

/-- Line 507: `(base_date.weekday() + 1) % 7` (Sunday = 0 .. Saturday = 6). -/
def js_dow (base : Date) : Nat := (weekdayPy base + 1) % 7

/-- Lines 442-538: extraction and assembly on the fully prepared text. -/
def assemble (text : List Char) (tz : List Char) (today : Date) :
    Except PErr ParseOut :=
  let location0 := ((reSearch LOCATION_RE text).bind fun m =>
    reGroup text m.2.2 1).map pyStrip
  let description0 := ((reSearch DESC_RE text).bind fun m =>
    reGroup text m.2.2 1).map pyStrip
  let date_range := extract_date_range text today
  let explicit_date :=
    if date_range.isSome then none
    else if (reSearch DATE_TOKEN_RE text).isSome then dtparse_fuzzy_text text today
    else none
  times_step text >>= fun tq =>
    let repeat_days0 := parse_days_list text
    let every_weeks := parse_every_weeks text
    let for_weeks := parse_for_weeks text
    let until_d0 := parse_until_date text today
    let repeat_days1 :=
      match date_range with
      | some _ => if repeat_days0.isNone then some [0, 1, 2, 3, 4, 5, 6] else repeat_days0
      | none => repeat_days0
    let until_d1 :=
      match date_range with
      | some r => some r.2
      | none => until_d0
    let base_date := (explicit_date <|> date_range.map Prod.fst).getD today
    let repeat_days2 :=
      if every_weeks.isSome ∧ repeat_days1.isNone then some [js_dow base_date]
      else repeat_days1
    let until_d2 :=
      match for_weeks, until_d1 with
      | some w, none => some (dateAddDays base_date (7 * w))
      | _, _ => until_d1
    let title := scrub_title text
    build_local_times base_date tq.1 tq.2.1 tq.2.2.1 tq.2.2.2 >>= fun se =>
      Except.ok
        { title := some title
          start := some (build_iso se.1 tz)
          stop := some (build_iso se.2 tz)
          repeatDays := repeat_days2
          repeatUntil := until_d2
          repeatEveryWeeks := every_weeks
          location := gateStr location0
          description := gateStr description0 }

/-- Line 396: `ZoneInfo(tz_name) if tz_name else ZoneInfo("UTC")` — note
the argument is NOT guarded by `pick_tz`'s fallback; an unresolvable
name raises (`.error .unknownZone`). -/
def resolve_base_tz (tz_name : Option (List Char)) : Except PErr (List Char) :=
  match tz_name with
  | some z =>
    if z = [] then .ok "UTC".data
    else if zone_valid z then .ok z else .error .unknownZone
  | none => .ok "UTC".data

/-- `parse_text_into_fields(raw_prompt, tz_name)`; `today` stands for the
`datetime.now(tz).date()` the source reads from the clock. -/
def parse_text_into_fields (raw_prompt : List Char) (tz_name : Option (List Char))
    (today : Date) : Except PErr ParseOut :=
  match resolve_base_tz tz_name with
  | .error e => .error e
  | .ok base_tz =>
    let text := pyStrip raw_prompt
    if text = [] then .ok {}
    else
      let t1 := normalize1 text
      let tz_hint := (reSearch TZ_RE t1).bind fun m => reGroup t1 m.2.2 1
      let tz := pick_tz tz_hint base_tz
      assemble (prepped_text text today) tz today

/-! ## Events: `_overlaps`, the conflict query, `suggest_next_free` -/

/-- A stored event row's interval (UTC instants as minutes; `stop` embeds
the Python attribute `end`). -/
structure Ev where
  start : Int
  stop : Int
deriving DecidableEq, Repr

/-- `_overlaps` (line 598). -/
def _overlaps (a_start a_end b_start b_end : Int) : Bool :=
  decide (a_start < b_end) && decide (b_start < a_end)

/-- The stored-interval filter `Event.start < end_dt AND Event.end > start_dt`
used by `create_event` (line 624), `update_event`, `list_events` and
`suggest_next_free`. -/
def db_conflicts (events : List Ev) (s e : Int) : List Ev :=
  events.filter fun c => decide (c.start < e) && decide (c.stop > s)

/-- `create_event`'s rejection condition (HTTP 409 when the query is
non-empty, lines 624-627). -/
def create_event_rejects (events : List Ev) (s e : Int) : Bool :=
  !(db_conflicts events s e).isEmpty

/-- `max(c.end for c in conflicts)`. -/
def max_end : List Ev → Int
  | [] => 0
  | [c] => c.stop
  | c :: rest => max c.stop (max_end rest)

/-- The `while True` push-forward loop of `suggest_next_free` (lines
705-711), given explicit fuel; the termination theorem shows fuel
`events.length + 1` always suffices, so the fuel is not a behavioral
restriction. -/
def suggest_loop : Nat → List Ev → Int → Int → Option (Int × Int)
  | 0, _, _, _ => none
  | f + 1, events, dur, new_start =>
    match db_conflicts events new_start (new_start + dur) with
    | [] => some (new_start, new_start + dur)
    | cs => suggest_loop f events dur (max_end cs)

/-- `suggest_next_free` (lines 681-713). -/
def suggest_next_free (events : List Ev) (s e : Int) : Except PErr (Int × Int) :=
  if e - s ≤ 0 then .error .invalidDuration
  else
    let dur := e - s
    match db_conflicts events s e with
    | [] => .ok (s, e)
    | cs =>
      match suggest_loop (events.length + 1) events dur (max_end cs) with
      | some p => .ok p
      | none => .error .loopLimit

/-- Termination measure for the push-forward loop: how many stored
intervals still end after the candidate start. -/
def unresolvedCount (events : List Ev) (x : Int) : Nat :=
  (events.filter fun c => decide (x < c.stop)).length

/-! ## Decidability of result equality (used by the concrete evaluations) -/

deriving instance DecidableEq for Except

/-! ## Claim theorems -/

/-- C1: the conflict detector reports a conflict between the half-open
intervals [aStart,aEnd) and [bStart,bEnd) iff aStart < bEnd and
bStart < aEnd; touching intervals (9:00-10:00 vs 10:00-11:00, in
minutes) never conflict while properly overlapping ones (9:00-10:00 vs
9:59-10:01) always do; and the stored-event query used by create_event
selects exactly the rows that `_overlaps` the posted window. -/
theorem c1_conflict_iff :
    (∀ a_start a_end b_start b_end : Int,
      _overlaps a_start a_end b_start b_end = true ↔
        (a_start < b_end ∧ b_start < a_end)) ∧
    _overlaps 540 600 600 660 = false ∧
    _overlaps 540 600 599 601 = true ∧
    (∀ (events : List Ev) (s e : Int) (c : Ev),
      c ∈ db_conflicts events s e ↔
        (c ∈ events ∧ _overlaps s e c.start c.stop = true)) := by
  refine ⟨?_, by decide, by decide, ?_⟩
  · intro aS aE bS bE
    simp [_overlaps]
  · intro events s e c
    simp only [db_conflicts, List.mem_filter, _overlaps, Bool.and_eq_true,
      decide_eq_true_iff]
    constructor
    · rintro ⟨hm, h1, h2⟩
      exact ⟨hm, h2, h1⟩
    · rintro ⟨hm, h2, h1⟩
      exact ⟨hm, h1, h2⟩

/-- Closed instantiation of `c1_conflict_iff`. -/
theorem c1_conflict_iff_witness : _overlaps 0 10 5 15 = true :=
  (c1_conflict_iff.1 0 10 5 15).mpr (by decide)

/-- C2 counterexample: parse("11pm to 1am", tz = UTC) succeeds but
returns end 02:00 strictly BEFORE start 23:00 of the same day — the
one-hour bump of lines 520-521 does not restore end > start when the
parsed end is more than an hour before the start. -/
theorem c2_counterexample :
    parse_text_into_fields "11pm to 1am".data none ⟨2025, 10, 12⟩ =
      .ok { title := some "Untitled".data,
            start := some (datetime_min ⟨2025, 10, 12⟩ 23 0),
            stop := some (datetime_min ⟨2025, 10, 12⟩ 2 0) } ∧
    datetime_min ⟨2025, 10, 12⟩ 2 0 < datetime_min ⟨2025, 10, 12⟩ 23 0 :=
  ⟨rfl, by decide⟩

/-- C2 amended: when the extracted end is not after the start the
assembler adds one hour to the end; the returned end is strictly after
the start iff the extracted end is less than one hour before the start
(minutes of wall-clock time). -/
theorem c2_end_fix (s e : Nat) : s < fix_end_local s e ↔ s < e + 60 := by
  unfold fix_end_local
  split <;> omega

/-- Closed instantiation of `c2_end_fix`. -/
theorem c2_end_fix_witness : (540 : Nat) < fix_end_local 540 540 :=
  (c2_end_fix 540 540).mpr (by omega)

/-- C3: the code raises where the claim says it cannot: an unresolvable
timezone argument aborts `parse_text_into_fields` at the unguarded
`ZoneInfo(tz_name)` of line 396, and "today 9-10" (clock date
2025-10-12) aborts with a `ValueError`, because the substituted ISO
date "2025-10-12" lets TIME_RANGE_RE match "25-10", giving hour 25 to
the `datetime` constructor of line 518. -/
theorem c3_parse_raises :
    parse_text_into_fields "hi 9-10".data (some "Not/AZone".data) ⟨2025, 10, 12⟩ =
      .error .unknownZone ∧
    parse_text_into_fields "today 9-10".data none ⟨2025, 10, 12⟩ =
      .error .badTime := ⟨rfl, rfl⟩

/-- C4 counterexample: "weekend(s)" is not a recognized keyword at all
(no day set is extracted), and when an explicit day list precedes a
group keyword the group keyword loses: "mon, weekdays" yields {Mon},
not {Mon..Fri}. -/
theorem c4_counterexample :
    parse_days_list "weekends".data = none ∧
    parse_days_list "mon, weekdays".data = some [1] := ⟨rfl, rfl⟩

/-- C4 amended: "weekday(s)" maps to Mon..Fri (1..5 with Sunday = 0) and
"daily"/"everyday" to all seven days; there is no weekend keyword; and
the returned set is decided by the leftmost DAYS_LIST_RE match: a group
keyword wins exactly when it occurs inside that first matched span. -/
theorem c4_group_keywords :
    parse_days_list "weekdays".data = some [1, 2, 3, 4, 5] ∧
    parse_days_list "weekday".data = some [1, 2, 3, 4, 5] ∧
    parse_days_list "daily".data = some [0, 1, 2, 3, 4, 5, 6] ∧
    parse_days_list "everyday".data = some [0, 1, 2, 3, 4, 5, 6] ∧
    (∀ text t, days_group text = some t →
      (isInfixStr "weekday" (pyStrip (pyLower t)) ||
        isInfixStr "weekdays" (pyStrip (pyLower t))) = true →
      parse_days_list text = some [1, 2, 3, 4, 5]) ∧
    (∀ text t, days_group text = some t →
      (isInfixStr "weekday" (pyStrip (pyLower t)) ||
        isInfixStr "weekdays" (pyStrip (pyLower t))) = false →
      (isInfixStr "daily" (pyStrip (pyLower t)) ||
        isInfixStr "everyday" (pyStrip (pyLower t))) = true →
      parse_days_list text = some [0, 1, 2, 3, 4, 5, 6]) := by
  refine ⟨rfl, rfl, rfl, rfl, ?_, ?_⟩
  · intro text t h hw
    cases hw1 : isInfixStr "weekday" (pyStrip (pyLower t)) <;>
      cases hw2 : isInfixStr "weekdays" (pyStrip (pyLower t)) <;>
        rw [hw1, hw2] at hw <;> simp at hw <;>
          simp [parse_days_list, h, hw1, hw2]
  · intro text t h hw hd
    cases hw1 : isInfixStr "weekday" (pyStrip (pyLower t)) <;>
      cases hw2 : isInfixStr "weekdays" (pyStrip (pyLower t)) <;>
        rw [hw1, hw2] at hw <;> simp at hw <;>
          cases hd1 : isInfixStr "daily" (pyStrip (pyLower t)) <;>
            cases hd2 : isInfixStr "everyday" (pyStrip (pyLower t)) <;>
              rw [hd1, hd2] at hd <;> simp at hd <;>
                (simp [parse_days_list, h, hw1, hw2, hd1, hd2])

/-- Closed instantiation of `c4_group_keywords`. -/
theorem c4_group_keywords_witness :
    parse_days_list "every weekday 9-10".data = some [1, 2, 3, 4, 5] :=
  c4_group_keywords.2.2.2.2.1 "every weekday 9-10".data "weekday".data rfl rfl

/-- C6 counterexample: "until jan 5" carries no year and, resolved in
the current year, falls before today (2025-10-12), yet the returned
until-date is the past 2025-01-05 — only slash-form dates are rolled
forward. -/
theorem c6_counterexample :
    parse_until_date "until jan 5".data ⟨2025, 10, 12⟩ = some ⟨2025, 1, 5⟩ ∧
    dateLtB ⟨2025, 1, 5⟩ ⟨2025, 10, 12⟩ = true := ⟨rfl, rfl⟩

/-- C6 amended: the year-less roll-forward applies exactly to until
dates of the slash form `M/D` (matching `^\d{1,2}/\d{1,2}$`) that
resolve before today: those become the same month/day of the following
year, while every other extracted until date (month-name dates
included, however far in the past) is returned as parsed. -/
theorem c6_until_roll :
    (∀ text today raw d, until_raw text = some raw →
      parseDateToken raw today = some d →
      (dateLtB d today && reMatchFull SLASH_NOYEAR_RE (pyStrip raw)) = true →
      parse_until_date text today = date_new (today.year + 1) d.month d.day) ∧
    (∀ text today raw d, until_raw text = some raw →
      parseDateToken raw today = some d →
      (dateLtB d today && reMatchFull SLASH_NOYEAR_RE (pyStrip raw)) = false →
      parse_until_date text today = some d) ∧
    parse_until_date "until 1/5".data ⟨2025, 10, 12⟩ = some ⟨2026, 1, 5⟩ := by
  refine ⟨?_, ?_, rfl⟩
  · intro text today raw d h1 h2 h3
    rw [Bool.and_eq_true] at h3
    simp [parse_until_date, h1, h2, h3.1, h3.2]
  · intro text today raw d h1 h2 h3
    cases ha : dateLtB d today <;>
      cases hb : reMatchFull SLASH_NOYEAR_RE (pyStrip raw) <;>
        rw [ha, hb] at h3 <;> simp at h3 <;>
          simp [parse_until_date, h1, h2, ha, hb]

/-- Closed instantiation of `c6_until_roll`. -/
theorem c6_until_roll_witness :
    parse_until_date "until 1/5".data ⟨2025, 10, 12⟩ = date_new 2026 1 5 :=
  c6_until_roll.1 "until 1/5".data ⟨2025, 10, 12⟩ "1/5".data ⟨2025, 1, 5⟩ rfl rfl rfl

/-- C9 counterexample: two calls of parse with identical (text, tz)
arguments but made on different clock dates return different results —
the reference date `datetime.now(tz).date()` is a hidden input (every
date-less prompt is anchored to "today"). -/
theorem c9_counterexample :
    parse_text_into_fields "x 9-10".data none ⟨2025, 10, 12⟩ ≠
      parse_text_into_fields "x 9-10".data none ⟨2025, 10, 13⟩ := by
  decide

/-- C9 amended: parsing is deterministic in its inputs plus the clock's
local date: with the text, the timezone argument and the reference date
all fixed, repeated calls return identical results. -/
theorem c9_deterministic (t : List Char) (tz : Option (List Char)) (d d' : Date) :
    d = d' → parse_text_into_fields t tz d = parse_text_into_fields t tz d' := by
  intro h
  rw [h]

/-- Closed instantiation of `c9_deterministic`. -/
theorem c9_deterministic_witness :
    parse_text_into_fields "x".data none ⟨2025, 1, 1⟩ =
      parse_text_into_fields "x".data none ⟨2025, 1, 1⟩ :=
  c9_deterministic "x".data none ⟨2025, 1, 1⟩ ⟨2025, 1, 1⟩ rfl

/-- Decomposition of a successful `Except` bind. -/
theorem exceptBind_ok {ε α β : Type} (x : Except ε α) (f : α → Except ε β) (b : β)
    (h : (x >>= f) = .ok b) : ∃ a, x = .ok a ∧ f a = .ok b := by
  cases x with
  | error e => simp [Bind.bind, Except.bind] at h
  | ok a => exact ⟨a, rfl, by simpa [Bind.bind, Except.bind] using h⟩

/-- Every successful assembly carries the scrubbed title and both UTC
instants. -/
theorem assemble_ok_fields (text tz : List Char) (today : Date) (out : ParseOut)
    (h : assemble text tz today = .ok out) :
    out.title = some (scrub_title text) ∧ out.start.isSome ∧ out.stop.isSome := by
  unfold assemble at h
  obtain ⟨tq, hts, h⟩ := exceptBind_ok _ _ _ h
  dsimp only at h
  obtain ⟨se, hbt, h⟩ := exceptBind_ok _ _ _ h
  simp only [Except.ok.injEq] at h
  subst h
  simp

/-- A successfully extracted date range forces the until-date to the
range end and defaults an absent day set to all seven days. -/
theorem assemble_range_until (text tz : List Char) (today : Date) (out : ParseOut)
    (d1 d2 : Date) (h : assemble text tz today = .ok out)
    (hr : extract_date_range text today = some (d1, d2)) :
    out.repeatUntil = some d2 ∧
    (parse_days_list text = none → out.repeatDays = some [0, 1, 2, 3, 4, 5, 6]) := by
  unfold assemble at h
  obtain ⟨tq, hts, h⟩ := exceptBind_ok _ _ _ h
  dsimp only at h
  obtain ⟨se, hbt, h⟩ := exceptBind_ok _ _ _ h
  simp only [Except.ok.injEq] at h
  subst h
  constructor
  · cases hfw : parse_for_weeks text <;> simp [hr, hfw]
  · intro hdn
    simp [hr, hdn]

set_option maxRecDepth 4000 in
/-- C5 counterexample: parse("mon\r9-10") returns the EMPTY title (the
scrub leaves a bare carriage return, which is truthy but strips to
nothing), and a 201-character prompt of letters comes back as a
201-character title — no 200-character truncation is performed. -/
theorem c5_counterexample :
    parse_text_into_fields "mon\r9-10".data none ⟨2025, 10, 12⟩ =
      .ok { title := some [],
            start := some (datetime_min ⟨2025, 10, 12⟩ 9 0),
            stop := some (datetime_min ⟨2025, 10, 12⟩ 10 0),
            repeatDays := some [1] } ∧
    (parse_text_into_fields (List.replicate 201 'a') none ⟨2025, 10, 12⟩).map
        (fun o => o.title.map List.length) = .ok (some 201) := ⟨rfl, rfl⟩

/-- C5 amended: the title of a successful parse is exactly the scrubbed
leftover text, with "Untitled" substituted only when that leftover is
the empty string; no length cap is applied (the 200-character limit
exists only as a database column type), and a leftover consisting of
whitespace outside the stripped set yields an empty title. -/
theorem c5_title_no_cap :
    (∀ text, scrub_core text = [] → scrub_title text = "Untitled".data) ∧
    (∀ text, scrub_core text ≠ [] → scrub_title text = pyStrip (scrub_core text)) ∧
    (∀ text tz today out, assemble text tz today = .ok out →
      out.title = some (scrub_title text)) := by
  refine ⟨?_, ?_, ?_⟩
  · intro text h
    simp only [scrub_title, h, if_pos]
    rfl
  · intro text h
    simp only [scrub_title]
    rw [if_neg h]
  · intro text tz today out h
    exact (assemble_ok_fields _ _ _ _ h).1

/-- Closed instantiation of `c5_title_no_cap`. -/
theorem c5_title_no_cap_witness : scrub_title "9-10".data = "Untitled".data :=
  c5_title_no_cap.1 "9-10".data rfl

/-- C7: whenever a date range is successfully extracted from the
prepared text, the parse result's repeat-until is the range's end date
(overriding any separately stated until date), and an absent explicit
day set defaults to all seven weekdays. -/
theorem c7_range_drives_until :
    ∀ (raw : List Char) (tzArg : Option (List Char)) (today : Date) (out : ParseOut)
      (d1 d2 : Date),
      parse_text_into_fields raw tzArg today = .ok out →
      extract_date_range (prepped_text (pyStrip raw) today) today = some (d1, d2) →
      out.repeatUntil = some d2 ∧
      (parse_days_list (prepped_text (pyStrip raw) today) = none →
        out.repeatDays = some [0, 1, 2, 3, 4, 5, 6]) := by
  intro raw tzArg today out d1 d2 hok hr
  unfold parse_text_into_fields at hok
  cases hrz : resolve_base_tz tzArg with
  | error e => rw [hrz] at hok; simp at hok
  | ok btz =>
    rw [hrz] at hok
    dsimp only at hok
    by_cases hst : pyStrip raw = []
    · rw [hst] at hr
      have hnone : extract_date_range (prepped_text [] today) today = none := rfl
      rw [hnone] at hr
      cases hr
    · rw [if_neg hst] at hok
      exact assemble_range_until _ _ _ _ _ _ hok hr

/-- Closed instantiation of `c7_range_drives_until`. -/
theorem c7_range_drives_until_witness :
    (({ title := some "standup".data,
        start := some (datetime_min ⟨2025, 11, 1⟩ 9 0),
        stop := some (datetime_min ⟨2025, 11, 1⟩ 10 0),
        repeatDays := some [0, 1, 2, 3, 4, 5, 6],
        repeatUntil := some ⟨2025, 11, 3⟩ } : ParseOut).repeatUntil =
      some ⟨2025, 11, 3⟩) ∧
    (parse_days_list
        (prepped_text (pyStrip "standup nov 1 - nov 3 9-10am".data) ⟨2025, 10, 12⟩) = none →
      ({ title := some "standup".data,
         start := some (datetime_min ⟨2025, 11, 1⟩ 9 0),
         stop := some (datetime_min ⟨2025, 11, 1⟩ 10 0),
         repeatDays := some [0, 1, 2, 3, 4, 5, 6],
         repeatUntil := some ⟨2025, 11, 3⟩ } : ParseOut).repeatDays =
        some [0, 1, 2, 3, 4, 5, 6]) :=
  c7_range_drives_until "standup nov 1 - nov 3 9-10am".data none ⟨2025, 10, 12⟩
    _ ⟨2025, 11, 1⟩ ⟨2025, 11, 3⟩ rfl rfl

/-- C10 counterexample: "today 9-10" is a non-empty input, yet the parse
produces no result at all (it raises), rather than a result containing
a title, start and end. -/
theorem c10_counterexample :
    pyStrip "today 9-10".data ≠ [] ∧
    parse_text_into_fields "today 9-10".data none ⟨2025, 10, 12⟩ =
      .error .badTime := ⟨by decide, rfl⟩

/-- C10 amended: empty or whitespace-only input returns the completely
empty result (no title, start or end), and every SUCCESSFUL parse of a
non-empty input contains a title, a start and an end — but some
non-empty inputs make the parse raise instead of returning a result. -/
theorem c10_empty_vs_nonempty :
    (∀ raw today, pyStrip raw = [] →
      parse_text_into_fields raw none today = .ok {}) ∧
    (∀ raw tzArg today out, parse_text_into_fields raw tzArg today = .ok out →
      pyStrip raw ≠ [] →
      out.title.isSome ∧ out.start.isSome ∧ out.stop.isSome) := by
  constructor
  · intro raw today h
    unfold parse_text_into_fields
    simp [resolve_base_tz, h]
  · intro raw tzArg today out hok hne
    unfold parse_text_into_fields at hok
    cases hrz : resolve_base_tz tzArg with
    | error e => rw [hrz] at hok; simp at hok
    | ok btz =>
      rw [hrz] at hok
      dsimp only at hok
      rw [if_neg hne] at hok
      have hf := assemble_ok_fields _ _ _ _ hok
      exact ⟨by simp [hf.1], hf.2⟩

/-- Closed instantiation of `c10_empty_vs_nonempty`. -/
theorem c10_empty_vs_nonempty_witness :
    parse_text_into_fields "   ".data none ⟨2025, 10, 12⟩ = .ok {} :=
  c10_empty_vs_nonempty.1 "   ".data ⟨2025, 10, 12⟩ rfl

/-- Membership in the stored-interval conflict query. -/
theorem mem_db_conflicts {events : List Ev} {s e : Int} {c : Ev} :
    c ∈ db_conflicts events s e ↔ c ∈ events ∧ c.start < e ∧ s < c.stop := by
  simp [db_conflicts, List.mem_filter]

/-- `max_end` bounds every conflicting interval's end. -/
theorem max_end_le {cs : List Ev} {c : Ev} (h : c ∈ cs) : c.stop ≤ max_end cs := by
  induction cs with
  | nil => cases h
  | cons a t ih =>
    cases t with
    | nil =>
      rw [List.mem_singleton] at h
      subst h
      exact le_refl _
    | cons b u =>
      rcases List.mem_cons.mp h with rfl | ht
      · simp [max_end]
      · rw [show max_end (a :: b :: u) = max a.stop (max_end (b :: u)) from rfl]
        exact le_trans (ih ht) (le_max_right _ _)

/-- `max_end` of a non-empty list is attained by a member. -/
theorem max_end_mem {cs : List Ev} (h : cs ≠ []) : ∃ c ∈ cs, c.stop = max_end cs := by
  induction cs with
  | nil => exact absurd rfl h
  | cons a t ih =>
    cases t with
    | nil => exact ⟨a, List.mem_singleton_self a, rfl⟩
    | cons b u =>
      obtain ⟨c, hc, hcs⟩ := ih (by simp)
      by_cases hle : a.stop ≤ max_end (b :: u)
      · refine ⟨c, List.mem_cons_of_mem a hc, ?_⟩
        simp [max_end, max_eq_right hle, hcs]
      · refine ⟨a, List.mem_cons_self a _, ?_⟩
        simp [max_end, max_eq_left (le_of_not_le hle)]

/-- Filtering by a weaker predicate keeps at least as many elements. -/
theorem filter_length_mono {α : Type} (l : List α) (p q : α → Bool)
    (himp : ∀ a, p a = true → q a = true) :
    (l.filter p).length ≤ (l.filter q).length := by
  induction l with
  | nil => simp
  | cons a t ih =>
    by_cases hp : p a = true
    · rw [List.filter_cons_of_pos hp, List.filter_cons_of_pos (himp a hp)]
      simpa using ih
    · rw [List.filter_cons_of_neg (by simpa using hp)]
      cases hq : q a
      · rw [List.filter_cons_of_neg (by simp [hq])]
        exact ih
      · rw [List.filter_cons_of_pos hq]
        exact le_trans ih (Nat.le_succ _)

/-- Strict filter-length decrease given a witness satisfying only the
weaker predicate. -/
theorem filter_length_lt {α : Type} (l : List α) (p q : α → Bool)
    (himp : ∀ a, p a = true → q a = true)
    (b : α) (hb : b ∈ l) (hqb : q b = true) (hpb : p b = false) :
    (l.filter p).length < (l.filter q).length := by
  induction l with
  | nil => cases hb
  | cons a t ih =>
    rcases List.mem_cons.mp hb with rfl | hbt
    · rw [List.filter_cons_of_neg (by simp [hpb]), List.filter_cons_of_pos hqb]
      exact Nat.lt_succ_of_le (filter_length_mono t p q himp)
    · by_cases hp : p a = true
      · rw [List.filter_cons_of_pos hp, List.filter_cons_of_pos (himp a hp)]
        simpa using ih hbt
      · rw [List.filter_cons_of_neg (by simpa using hp)]
        cases hq : q a
        · rw [List.filter_cons_of_neg (by simp [hq])]
          exact ih hbt
        · rw [List.filter_cons_of_pos hq]
          exact Nat.lt_succ_of_lt (ih hbt)

/-- Each push of the candidate start past the latest conflicting end
strictly lowers the number of stored intervals still ahead of it. -/
theorem unresolved_decreases {events : List Ev} {dur x : Int}
    (hne : db_conflicts events x (x + dur) ≠ []) :
    unresolvedCount events (max_end (db_conflicts events x (x + dur))) <
      unresolvedCount events x := by
  obtain ⟨c, hc, hcs⟩ := max_end_mem hne
  have hmem := mem_db_conflicts.mp hc
  have hxc : x < c.stop := hmem.2.2
  have hxM : x < max_end (db_conflicts events x (x + dur)) := hcs ▸ hxc
  unfold unresolvedCount
  apply filter_length_lt _ _ _ ?_ c hmem.1 ?_ ?_
  · intro a ha
    simp only [decide_eq_true_iff] at ha ⊢
    omega
  · simp only [decide_eq_true_iff]
    exact hxc
  · simp only [decide_eq_false_iff_not]
    rw [← hcs]
    exact lt_irrefl _

/-- With fuel exceeding the measure, the push-forward loop returns a
conflict-free window of the requested duration. -/
theorem suggest_loop_ok (events : List Ev) (dur : Int) :
    ∀ fuel x, unresolvedCount events x < fuel →
      ∃ p, suggest_loop fuel events dur x = some p ∧
        db_conflicts events p.1 p.2 = [] ∧ p.2 = p.1 + dur := by
  intro fuel
  induction fuel with
  | zero => intro x h; exact absurd h (by omega)
  | succ f ih =>
    intro x h
    cases hc : db_conflicts events x (x + dur) with
    | nil =>
      exact ⟨(x, x + dur), by simp [suggest_loop, hc], hc, rfl⟩
    | cons c cs =>
      have hne : db_conflicts events x (x + dur) ≠ [] := by rw [hc]; simp
      have hdec := unresolved_decreases hne
      obtain ⟨p, hp, hcf, hd⟩ :=
        ih (max_end (db_conflicts events x (x + dur))) (by omega)
      rw [hc] at hp
      refine ⟨p, ?_, hcf, hd⟩
      simp only [suggest_loop, hc]
      exact hp

/-- C8: the next-free-slot search always terminates with a successful
answer: for every desired window with positive duration and every
finite stored-interval set it returns, within at most one iteration per
stored interval, a window of the same duration that conflicts with no
stored interval (the candidate start strictly increases through the
finite set of interval end-times, which bounds the iteration count). -/
theorem c8_suggest_terminates (events : List Ev) (s e : Int) (h : s < e) :
    ∃ p, suggest_next_free events s e = .ok p ∧
      db_conflicts events p.1 p.2 = [] ∧ p.2 - p.1 = e - s := by
  unfold suggest_next_free
  rw [if_neg (by omega)]
  cases hc : db_conflicts events s e with
  | nil => exact ⟨(s, e), by simp [hc], hc, rfl⟩
  | cons c cs =>
    have hb : unresolvedCount events (max_end (c :: cs)) < events.length + 1 := by
      have hle : unresolvedCount events (max_end (c :: cs)) ≤ events.length := by
        unfold unresolvedCount
        exact List.length_filter_le _ _
      omega
    obtain ⟨p, hp, hcf, hd⟩ :=
      suggest_loop_ok events (e - s) (events.length + 1) (max_end (c :: cs)) hb
    refine ⟨p, ?_, hcf, by omega⟩
    simp only [hc, hp]

/-- Closed instantiation of `c8_suggest_terminates`. -/
theorem c8_suggest_terminates_witness :
    ∃ p, suggest_next_free [⟨0, 10⟩] 0 5 = .ok p ∧
      db_conflicts [⟨0, 10⟩] p.1 p.2 = [] ∧ p.2 - p.1 = 5 - 0 :=
  c8_suggest_terminates [⟨0, 10⟩] 0 5 (by omega)
